import Mathlib

/-!
Verification of the volumetric preprocessing and post-processing pipeline of
`vercel-app/python-api/inference_api.py`, shallowly embedded over exact
rationals.  Each Python function is translated into a Lean definition of the
same name; NumPy/SciPy library calls are translated according to their
documented behaviour.  Volumes are flattened voxel lists (for the purely
value-wise intensity normalisation) or shape-carrying structures (for the
resampler, the stacker and the request pipeline).
-/

/-- Ascending sort of the flattened volume, modelling `np.sort(flat)`. -/
def np_sort (v : List ℚ) : List ℚ := List.insertionSort (· ≤ ·) v

/-- Lower percentile value `sorted_flat[int(len(sorted_flat) * 0.01)]`
(index taken at the floor of `0.01 * N`, as in `preprocess_mri`). -/
def min_percentile (v : List ℚ) : ℚ := (np_sort v).getD (v.length / 100) 0

/-- Upper percentile value `sorted_flat[int(len(sorted_flat) * 0.99)]`
(index taken at the floor of `0.99 * N`, as in `preprocess_mri`). -/
def max_percentile (v : List ℚ) : ℚ := (np_sort v).getD (99 * v.length / 100) 0

/-- Rescale divisor of `preprocess_mri`: `range_val = max_percentile -
min_percentile`, replaced by `1e-6` when it is below `1e-6`. -/
def range_val (v : List ℚ) : ℚ :=
  if max_percentile v - min_percentile v < 1 / 1000000 then 1 / 1000000
  else max_percentile v - min_percentile v

/-- Elementwise `np.clip(x, lo, hi)`. -/
def np_clip (lo hi x : ℚ) : ℚ := min (max x lo) hi

/-- Action of `preprocess_mri` on one voxel: clip to the percentile window,
rescale linearly by `range_val`, then zero any value below the `0.05` noise
floor. -/
def normalize_voxel (lo hi r x : ℚ) : ℚ :=
  if (np_clip lo hi x - lo) / r < 1 / 20 then 0 else (np_clip lo hi x - lo) / r

/-- Function `preprocess_mri` on the flattened voxel list: percentile clipping,
linear rescale to the unit interval, noise-floor suppression. -/
def preprocess_mri (v : List ℚ) : List ℚ :=
  v.map (normalize_voxel (min_percentile v) (max_percentile v) (range_val v))

theorem np_sort_length (v : List ℚ) : (np_sort v).length = v.length :=
  List.length_insertionSort _ _

theorem np_sort_sorted (v : List ℚ) : List.Sorted (· ≤ ·) (np_sort v) :=
  List.sorted_insertionSort _ _

theorem getD_of_lt (l : List ℚ) (i : ℕ) (h : i < l.length) :
    l.getD i 0 = l.get ⟨i, h⟩ := by
  simp [List.getD_eq_getElem?_getD, List.getElem?_eq_getElem h, List.get_eq_getElem]

theorem min_percentile_le (v : List ℚ) (h : v ≠ []) :
    min_percentile v ≤ max_percentile v := by
  have hn : 0 < v.length := List.length_pos.2 h
  have h2 : 99 * v.length / 100 < v.length := by omega
  have h1 : v.length / 100 ≤ 99 * v.length / 100 := by omega
  have hi2 : 99 * v.length / 100 < (np_sort v).length := by
    rw [np_sort_length]; exact h2
  have hi1 : v.length / 100 < (np_sort v).length := lt_of_le_of_lt h1 hi2
  rw [min_percentile, max_percentile, getD_of_lt _ _ hi1, getD_of_lt _ _ hi2]
  exact (np_sort_sorted v).rel_get_of_le (by exact h1)

theorem range_val_ge (v : List ℚ) : 1 / 1000000 ≤ range_val v := by
  rw [range_val]
  split
  · exact le_refl _
  · next hnot => exact le_of_not_lt hnot

theorem range_val_pos (v : List ℚ) : 0 < range_val v :=
  lt_of_lt_of_le (by norm_num) (range_val_ge v)

theorem sub_le_range_val (v : List ℚ) :
    max_percentile v - min_percentile v ≤ range_val v := by
  rw [range_val]
  split
  · next hlt => exact le_of_lt hlt
  · exact le_refl _

theorem normalize_voxel_bounds (lo hi r x : ℚ) (hlohi : lo ≤ hi) (hr : 0 < r)
    (hsub : hi - lo ≤ r) :
    0 ≤ normalize_voxel lo hi r x ∧ normalize_voxel lo hi r x ≤ 1 ∧
      (normalize_voxel lo hi r x < 1 / 20 → normalize_voxel lo hi r x = 0) := by
  have h1 : lo ≤ np_clip lo hi x := le_min (le_max_right x lo) hlohi
  have h2 : np_clip lo hi x ≤ hi := min_le_right _ _
  have hn0 : 0 ≤ (np_clip lo hi x - lo) / r := div_nonneg (by linarith) hr.le
  have hn1 : (np_clip lo hi x - lo) / r ≤ 1 := by
    rw [div_le_one hr]; linarith
  rw [normalize_voxel]
  split
  · exact ⟨le_refl 0, by norm_num, fun _ => rfl⟩
  · next hlt => exact ⟨hn0, hn1, fun hcon => absurd hcon hlt⟩

theorem preprocess_mri_mem (v : List ℚ) (h : v ≠ []) (y : ℚ)
    (hy : y ∈ preprocess_mri v) :
    0 ≤ y ∧ y ≤ 1 ∧ (y < 1 / 20 → y = 0) := by
  obtain ⟨x, _, rfl⟩ := List.mem_map.1 hy
  exact normalize_voxel_bounds _ _ _ _ (min_percentile_le v h) (range_val_pos v)
    (sub_le_range_val v)

/-- C1: for every non-empty input volume, every output value of the intensity
normaliser `preprocess_mri` lies in the closed interval `[0, 1]`, and every
output value strictly below the noise floor `0.05` is exactly `0` (so each
output value is either `0` or at least `0.05`). -/
theorem preprocess_mri_output_bounds (v : List ℚ) (h : v ≠ []) :
    ∀ y ∈ preprocess_mri v, (0 ≤ y ∧ y ≤ 1) ∧ (y < 1 / 20 → y = 0) := by
  intro y hy
  obtain ⟨h0, h1, hfloor⟩ := preprocess_mri_mem v h y hy
  exact ⟨⟨h0, h1⟩, hfloor⟩

/-- Witness for C1 at the concrete volume `[0, 1, 2]`, whose normalised form
is `[0, 1/2, 1]`. -/
theorem preprocess_mri_output_bounds_witness :
    ([(0 : ℚ), 1, 2] ≠ [] ∧ (1 / 2 : ℚ) ∈ preprocess_mri [0, 1, 2]) ∧
      ((0 ≤ (1 / 2 : ℚ) ∧ (1 / 2 : ℚ) ≤ 1) ∧ ((1 / 2 : ℚ) < 1 / 20 → (1 / 2 : ℚ) = 0)) :=
  ⟨⟨by with_unfolding_all decide, by with_unfolding_all decide⟩,
    preprocess_mri_output_bounds [0, 1, 2] (by with_unfolding_all decide) (1 / 2) (by with_unfolding_all decide)⟩

/-- C5: the rescale divisor of `preprocess_mri` is `p99 - p1` when that
difference is at least `1e-6` and is exactly `1e-6` otherwise; it is always
at least `1e-6`, hence strictly positive, so the linear rescale is
well-defined for every (non-empty) input volume, including constant ones. -/
theorem range_val_floor (v : List ℚ) (h : v ≠ []) :
    (1 / 1000000 ≤ max_percentile v - min_percentile v →
        range_val v = max_percentile v - min_percentile v) ∧
      (max_percentile v - min_percentile v < 1 / 1000000 →
        range_val v = 1 / 1000000) ∧
      1 / 1000000 ≤ range_val v ∧ 0 < range_val v := by
  refine ⟨?_, ?_, range_val_ge v, range_val_pos v⟩
  · intro hge
    rw [range_val, if_neg (not_lt.2 hge)]
  · intro hlt
    rw [range_val, if_pos hlt]

/-- Witness for C5 at the constant volume `[5, 5, 5]`, where the percentile
range collapses to `0` and the divisor is forced to `1e-6`. -/
theorem range_val_floor_witness :
    ([(5 : ℚ), 5, 5] ≠ []) ∧
      ((1 / 1000000 ≤ max_percentile [(5 : ℚ), 5, 5] - min_percentile [(5 : ℚ), 5, 5] →
          range_val [(5 : ℚ), 5, 5] =
            max_percentile [(5 : ℚ), 5, 5] - min_percentile [(5 : ℚ), 5, 5]) ∧
        (max_percentile [(5 : ℚ), 5, 5] - min_percentile [(5 : ℚ), 5, 5] < 1 / 1000000 →
          range_val [(5 : ℚ), 5, 5] = 1 / 1000000) ∧
        1 / 1000000 ≤ range_val [(5 : ℚ), 5, 5] ∧ 0 < range_val [(5 : ℚ), 5, 5]) :=
  ⟨by with_unfolding_all decide, range_val_floor [5, 5, 5] (by with_unfolding_all decide)⟩

/-- Counterexample to C3: the volume `[0, 9/10, 9/10]` is itself an output of
the normaliser (it is `preprocess_mri [0, 9e-7, 9e-7]`, produced through the
floored-range branch), yet re-applying `preprocess_mri` re-stretches it to
`[0, 1, 1]`, so the normaliser is not idempotent on its own image. -/
theorem preprocess_mri_not_idempotent :
    preprocess_mri [(0 : ℚ), 9 / 10000000, 9 / 10000000] = [0, 9 / 10, 9 / 10] ∧
      preprocess_mri [(0 : ℚ), 9 / 10, 9 / 10] ≠ [0, 9 / 10, 9 / 10] := by
  constructor <;> with_unfolding_all decide

/-- C3 amended: the normaliser is a no-op on an already-normalised volume
whose lower percentile value is `0` and whose upper percentile value is `1`
(which is the situation whenever the first pass took the ordinary, non-floored
range branch and the percentile window spans the full unit interval); outputs
produced through the `1e-6` range floor can have an upper percentile below `1`
and are re-stretched by a second pass. -/
theorem preprocess_mri_idempotent_of_percentiles (u : List ℚ) (hu : u ≠ [])
    (h0 : min_percentile (preprocess_mri u) = 0)
    (h1 : max_percentile (preprocess_mri u) = 1) :
    preprocess_mri (preprocess_mri u) = preprocess_mri u := by
  have hrange : range_val (preprocess_mri u) = 1 := by
    rw [range_val, h0, h1]; norm_num
  show (preprocess_mri u).map
      (normalize_voxel (min_percentile (preprocess_mri u))
        (max_percentile (preprocess_mri u)) (range_val (preprocess_mri u))) =
    preprocess_mri u
  rw [h0, h1, hrange]
  refine (List.map_congr_left ?_).trans (List.map_id _)
  intro y hy
  obtain ⟨hy0, hy1, hfloor⟩ := preprocess_mri_mem u hu y hy
  have hclip : np_clip 0 1 y = y := by
    rw [np_clip, max_eq_left hy0, min_eq_left hy1]
  rw [normalize_voxel, hclip]
  simp only [sub_zero, div_one, id_eq]
  split
  · next hlt => exact (hfloor hlt).symm
  · rfl

/-- Witness for the amended C3 at the volume `[0, 1, 2]`, whose normalised
form `[0, 1/2, 1]` has percentile window `[0, 1]` and is a fixed point. -/
theorem preprocess_mri_idempotent_witness :
    (([(0 : ℚ), 1, 2] ≠ []) ∧ min_percentile (preprocess_mri [(0 : ℚ), 1, 2]) = 0 ∧
        max_percentile (preprocess_mri [(0 : ℚ), 1, 2]) = 1) ∧
      preprocess_mri (preprocess_mri [(0 : ℚ), 1, 2]) = preprocess_mri [(0 : ℚ), 1, 2] :=
  ⟨⟨by with_unfolding_all decide, by with_unfolding_all decide,
      by with_unfolding_all decide⟩,
    preprocess_mri_idempotent_of_percentiles [0, 1, 2] (by with_unfolding_all decide)
      (by with_unfolding_all decide) (by with_unfolding_all decide)⟩

/-- Index of the first occurrence of the maximal element of a score list,
modelling `np.argmax` along the class axis (NumPy documents that in case of
multiple occurrences of the maximum the index of the first is returned). -/
def np_argmax : List ℚ → ℕ
  | [] => 0
  | [_] => 0
  | x :: y :: t =>
    if (y :: t).getD (np_argmax (y :: t)) 0 > x then np_argmax (y :: t) + 1 else 0

theorem np_argmax_lt : ∀ l : List ℚ, l ≠ [] → np_argmax l < l.length
  | [_], _ => by simp [np_argmax]
  | _ :: y :: t, _ => by
    rw [np_argmax]
    split
    · exact Nat.succ_lt_succ (np_argmax_lt (y :: t) (by simp))
    · simp

theorem np_argmax_max :
    ∀ l : List ℚ, ∀ c < l.length, l.getD c 0 ≤ l.getD (np_argmax l) 0
  | [_], c, hc => by
    have hc0 : c = 0 := Nat.lt_one_iff.1 (by simpa using hc)
    subst hc0
    simp [np_argmax]
  | x :: y :: t, c, hc => by
    rw [np_argmax]
    split
    · next hgt =>
      match c with
      | 0 => simpa using le_of_lt hgt
      | c + 1 =>
        simpa using np_argmax_max (y :: t) c (by simpa using hc)
    · next hle =>
      match c with
      | 0 => simp
      | c + 1 =>
        have h1 : (y :: t).getD c 0 ≤ (y :: t).getD (np_argmax (y :: t)) 0 :=
          np_argmax_max (y :: t) c (by simpa using hc)
        have h2 : (y :: t).getD (np_argmax (y :: t)) 0 ≤ x := le_of_not_lt hle
        simpa using le_trans h1 h2

theorem np_argmax_first :
    ∀ l : List ℚ, ∀ c < np_argmax l, l.getD c 0 < l.getD (np_argmax l) 0
  | [], c, hc => by simp [np_argmax] at hc
  | [_], c, hc => by simp [np_argmax] at hc
  | x :: y :: t, c, hc => by
    rw [np_argmax] at hc ⊢
    split
    · next hgt =>
      match c with
      | 0 => simpa using hgt
      | c + 1 =>
        rw [if_pos hgt] at hc
        simpa using np_argmax_first (y :: t) c (by omega)
    · next hle =>
      rw [if_neg hle] at hc
      omega

/-- Per-voxel class selection `np.argmax(prediction[0], axis=-1)` of the
`predict` endpoint, applied to the class-score list of one voxel. -/
def predicted_classes (probs : ℕ → ℕ → ℕ → List ℚ) (i j k : ℕ) : ℕ :=
  np_argmax (probs i j k)

/-- C6: per-voxel classification selects a valid class index whose score is
maximal along the class axis, and every class index before the selected one
scores strictly less, so ties for the maximum are broken by the lowest index
(in particular, equal maximal scores at class 1 and class 2 assign class 1,
as the witness instantiates). -/
theorem predicted_classes_first_argmax (probs : ℕ → ℕ → ℕ → List ℚ) (i j k : ℕ)
    (h : probs i j k ≠ []) :
    predicted_classes probs i j k < (probs i j k).length ∧
      (∀ c < (probs i j k).length,
        (probs i j k).getD c 0 ≤ (probs i j k).getD (predicted_classes probs i j k) 0) ∧
      ∀ c < predicted_classes probs i j k,
        (probs i j k).getD c 0 < (probs i j k).getD (predicted_classes probs i j k) 0 :=
  ⟨np_argmax_lt _ h, fun c hc => np_argmax_max _ c hc,
    fun c hc => np_argmax_first _ c hc⟩

/-- Witness for C6 at the score list `[0, 1, 1, 0]`: classes 1 and 2 tie for
the maximum and class 1 is assigned. -/
theorem predicted_classes_first_argmax_witness :
    ((fun _ _ _ => [(0 : ℚ), 1, 1, 0]) 0 0 0 ≠ [] ∧
        predicted_classes (fun _ _ _ => [(0 : ℚ), 1, 1, 0]) 0 0 0 = 1) ∧
      (predicted_classes (fun _ _ _ => [(0 : ℚ), 1, 1, 0]) 0 0 0 <
          ((fun _ _ _ => [(0 : ℚ), 1, 1, 0]) 0 0 0).length ∧
        (∀ c < ((fun _ _ _ => [(0 : ℚ), 1, 1, 0]) 0 0 0).length,
          ((fun _ _ _ => [(0 : ℚ), 1, 1, 0]) 0 0 0).getD c 0 ≤
            ((fun _ _ _ => [(0 : ℚ), 1, 1, 0]) 0 0 0).getD
              (predicted_classes (fun _ _ _ => [(0 : ℚ), 1, 1, 0]) 0 0 0) 0) ∧
        ∀ c < predicted_classes (fun _ _ _ => [(0 : ℚ), 1, 1, 0]) 0 0 0,
          ((fun _ _ _ => [(0 : ℚ), 1, 1, 0]) 0 0 0).getD c 0 <
            ((fun _ _ _ => [(0 : ℚ), 1, 1, 0]) 0 0 0).getD
              (predicted_classes (fun _ _ _ => [(0 : ℚ), 1, 1, 0]) 0 0 0) 0) :=
  ⟨⟨by with_unfolding_all decide, by with_unfolding_all decide⟩,
    predicted_classes_first_argmax (fun _ _ _ => [(0 : ℚ), 1, 1, 0]) 0 0 0
      (by with_unfolding_all decide)⟩

/-- Shape-carrying 3D volume: an intensity array indexed by three spatial
coordinates together with its extents `(X, Y, Z)`. -/
structure Volume where
  shape : ℕ × ℕ × ℕ
  data : ℕ → ℕ → ℕ → ℚ

/-- Per-axis zoom factor `target_shape[i] / current_shape[i]` computed by
`resize_volume`. -/
def zoom_factor (t s : ℕ) : ℚ := (t : ℚ) / (s : ℚ)

/-- Output extent of `scipy.ndimage.zoom` along one axis, documented as the
input extent times the zoom factor rounded to the nearest integer (the
half-way rounding mode is immaterial here because the product is exact). -/
def zoom_extent (s t : ℕ) : ℕ := (round ((s : ℚ) * zoom_factor t s)).toNat

/-- Nearest-neighbour source index for an output index, modelling order-0
interpolation with nearest-edge clamping (`order=0, mode='nearest'`): the
output coordinate maps back through the zoom factor, is rounded to the
nearest integer and clamped to the valid input range. Modelled from the
scipy documentation (the library call itself is not part of the repository). -/
def nearest_index (s t o : ℕ) : ℕ :=
  min (s - 1) (round ((o : ℚ) / zoom_factor t s)).toNat

/-- Function `resize_volume`: resample a volume onto the target grid using
nearest-neighbour interpolation via `scipy.ndimage.zoom(volume, zoom_factors,
order=0, mode='nearest')`. -/
def resize_volume (v : Volume) (target : ℕ × ℕ × ℕ) : Volume :=
  { shape := (zoom_extent v.shape.1 target.1, zoom_extent v.shape.2.1 target.2.1,
      zoom_extent v.shape.2.2 target.2.2),
    data := fun i j k =>
      v.data (nearest_index v.shape.1 target.1 i)
        (nearest_index v.shape.2.1 target.2.1 j)
        (nearest_index v.shape.2.2 target.2.2 k) }

theorem zoom_extent_eq (s t : ℕ) (hs : 0 < s) : zoom_extent s t = t := by
  have hs0 : (s : ℚ) ≠ 0 := Nat.cast_ne_zero.2 (Nat.pos_iff_ne_zero.1 hs)
  rw [zoom_extent, zoom_factor, mul_comm, div_mul_cancel₀ _ hs0, round_natCast,
    Int.toNat_natCast]

/-- C2: for every input volume with positive shape dimensions — including the
degenerate 1x1x1 volume and oversized ones, and whatever the (generally
non-integer) per-axis zoom factors are — the resampler output has shape
exactly (128, 128, 96). -/
theorem resize_volume_shape (v : Volume) (h1 : 0 < v.shape.1)
    (h2 : 0 < v.shape.2.1) (h3 : 0 < v.shape.2.2) :
    (resize_volume v (128, 128, 96)).shape = (128, 128, 96) := by
  show (zoom_extent v.shape.1 128, zoom_extent v.shape.2.1 128,
    zoom_extent v.shape.2.2 96) = (128, 128, 96)
  rw [zoom_extent_eq _ _ h1, zoom_extent_eq _ _ h2, zoom_extent_eq _ _ h3]

/-- Witness for C2 at the degenerate constant volume of shape (1, 1, 1). -/
theorem resize_volume_shape_witness :
    (0 < (Volume.mk (1, 1, 1) fun _ _ _ => 0).shape.1 ∧
        0 < (Volume.mk (1, 1, 1) fun _ _ _ => 0).shape.2.1 ∧
        0 < (Volume.mk (1, 1, 1) fun _ _ _ => 0).shape.2.2) ∧
      (resize_volume (Volume.mk (1, 1, 1) fun _ _ _ => 0) (128, 128, 96)).shape =
        (128, 128, 96) :=
  ⟨⟨Nat.one_pos, Nat.one_pos, Nat.one_pos⟩,
    resize_volume_shape (Volume.mk (1, 1, 1) fun _ _ _ => 0) Nat.one_pos Nat.one_pos
      Nat.one_pos⟩

/-- Error taxonomy of the request pipeline: `decodeError` models the
`ValueError("Failed to parse NIfTI file: ...")` raised by `parse_nifti`, and
`shapeMismatch` the `ValueError` raised by `np.stack` on unequal input
shapes; `predict` surfaces either to the caller as an HTTP 500 response. -/
inductive ApiError where
  | decodeError : ApiError
  | shapeMismatch : ApiError
deriving DecidableEq

/-- Five-dimensional tensor produced by stacking the four modalities and
prepending the batch axis: extents together with the voxel data indexed as
`(batch, i, j, k, channel)`. -/
structure Stacked where
  shape : ℕ × ℕ × ℕ × ℕ × ℕ
  data : ℕ → ℕ → ℕ → ℕ → ℕ → ℚ

/-- Modality stacking of `predict`: `np.stack([t1, t1ce, t2, flair], axis=-1)`
followed by `np.expand_dims(stacked, axis=0)`. NumPy's `stack` raises a
`ValueError` when the four arrays do not all share one shape (documented
behaviour) and never broadcasts; it performs no comparison against the fixed
target shape. -/
def stack_modalities (t1 t1ce t2 flair : Volume) : Except ApiError Stacked :=
  if t1.shape = t1ce.shape ∧ t1.shape = t2.shape ∧ t1.shape = flair.shape then
    .ok { shape := (1, t1.shape.1, t1.shape.2.1, t1.shape.2.2, 4),
          data := fun _ i j k c =>
            if c = 0 then t1.data i j k
            else if c = 1 then t1ce.data i j k
            else if c = 2 then t2.data i j k
            else flair.data i j k }
  else .error ApiError.shapeMismatch

/-- Boolean success test for a stacking result. -/
def stack_ok (r : Except ApiError Stacked) : Bool :=
  match r with
  | .ok _ => true
  | .error _ => false

/-- Counterexample to C4: four volumes all of shape (1, 1, 1) — none equal to
the target (128, 128, 96) — are stacked successfully, because `np.stack` only
compares the four shapes with one another; the stacker therefore does not
fail when every input has the same wrong shape. -/
theorem stack_modalities_no_target_check :
    stack_ok (stack_modalities (Volume.mk (1, 1, 1) fun _ _ _ => 0)
        (Volume.mk (1, 1, 1) fun _ _ _ => 0) (Volume.mk (1, 1, 1) fun _ _ _ => 0)
        (Volume.mk (1, 1, 1) fun _ _ _ => 0)) = true ∧
      (Volume.mk (1, 1, 1) fun _ _ _ => 0).shape ≠ (128, 128, 96) := by
  constructor
  · rfl
  · with_unfolding_all decide

/-- C4 amended: the stacker fails — with the `ValueError` that the `predict`
handler surfaces to the caller as an HTTP 500 instead of crashing the
process — exactly when the four input shapes are not all equal, and it never
silently broadcasts mismatched volumes; but it has no defensive check against
the fixed target shape (128, 128, 96), so four inputs sharing one wrong shape
are stacked without error. -/
theorem stack_modalities_error_iff (t1 t1ce t2 flair : Volume) :
    stack_ok (stack_modalities t1 t1ce t2 flair) = false ↔
      ¬(t1.shape = t1ce.shape ∧ t1.shape = t2.shape ∧ t1.shape = flair.shape) := by
  rw [stack_modalities]
  split
  · next hcond => exact iff_of_false (by simp [stack_ok]) (not_not_intro hcond)
  · next hcond => exact iff_of_true rfl hcond

/-- C9: for any four volumes of the contract shape (128, 128, 96), stacking
succeeds and yields a tensor of shape (1, 128, 128, 96, 4) whose channel 0 is
exactly the T1 volume, channel 1 T1ce, channel 2 T2 and channel 3 FLAIR. -/
theorem stack_modalities_channel_order (t1 t1ce t2 flair : Volume)
    (h1 : t1.shape = (128, 128, 96)) (h2 : t1ce.shape = (128, 128, 96))
    (h3 : t2.shape = (128, 128, 96)) (h4 : flair.shape = (128, 128, 96)) :
    ∃ s, stack_modalities t1 t1ce t2 flair = .ok s ∧
      s.shape = (1, 128, 128, 96, 4) ∧
      ∀ i j k, s.data 0 i j k 0 = t1.data i j k ∧
        s.data 0 i j k 1 = t1ce.data i j k ∧
        s.data 0 i j k 2 = t2.data i j k ∧
        s.data 0 i j k 3 = flair.data i j k := by
  rw [stack_modalities,
    if_pos ⟨h1.trans h2.symm, h1.trans h3.symm, h1.trans h4.symm⟩]
  refine ⟨_, rfl, by simp [h1], ?_⟩
  intro i j k
  exact ⟨rfl, rfl, rfl, rfl⟩

/-- Witness for C9 at four concrete constant volumes of the contract shape. -/
theorem stack_modalities_channel_order_witness :
    ((Volume.mk (128, 128, 96) fun _ _ _ => 1).shape = (128, 128, 96) ∧
        (Volume.mk (128, 128, 96) fun _ _ _ => 2).shape = (128, 128, 96) ∧
        (Volume.mk (128, 128, 96) fun _ _ _ => 3).shape = (128, 128, 96) ∧
        (Volume.mk (128, 128, 96) fun _ _ _ => 4).shape = (128, 128, 96)) ∧
      ∃ s, stack_modalities (Volume.mk (128, 128, 96) fun _ _ _ => 1)
          (Volume.mk (128, 128, 96) fun _ _ _ => 2)
          (Volume.mk (128, 128, 96) fun _ _ _ => 3)
          (Volume.mk (128, 128, 96) fun _ _ _ => 4) = .ok s ∧
        s.shape = (1, 128, 128, 96, 4) ∧
        ∀ i j k, s.data 0 i j k 0 = (Volume.mk (128, 128, 96) fun _ _ _ => 1).data i j k ∧
          s.data 0 i j k 1 = (Volume.mk (128, 128, 96) fun _ _ _ => 2).data i j k ∧
          s.data 0 i j k 2 = (Volume.mk (128, 128, 96) fun _ _ _ => 3).data i j k ∧
          s.data 0 i j k 3 = (Volume.mk (128, 128, 96) fun _ _ _ => 4).data i j k :=
  ⟨⟨rfl, rfl, rfl, rfl⟩,
    stack_modalities_channel_order _ _ _ _ rfl rfl rfl rfl⟩

/-- Total voxel count `target_shape[0] * target_shape[1] * target_shape[2]`
of the fixed (128, 128, 96) grid. -/
def total_voxels : ℕ := 128 * 128 * 96

/-- Row-major flattening `predicted_classes.flatten().tolist()` of the
per-voxel arg-max segmentation map over the (128, 128, 96) grid: the linear
index `n` decomposes as `n = i*(128*96) + j*96 + k`. -/
def prediction_flat (probs : ℕ → ℕ → ℕ → List ℚ) : List ℕ :=
  (List.range total_voxels).map fun n =>
    predicted_classes probs (n / (128 * 96)) (n / 96 % 128) (n % 96)

/-- Per-class voxel counts, modelling the dictionary built from
`np.unique(predicted_classes, return_counts=True)`, read with a zero default
for an absent class as in `region_counts.get(0, 0)`. -/
def region_counts (seg : List ℕ) (c : ℕ) : ℕ := seg.count c

/-- Count `tumor_voxels = total_voxels - region_counts.get(0, 0)`. -/
def tumor_voxels (seg : List ℕ) : ℕ := total_voxels - region_counts seg 0

/-- Value `tumor_percentage = (tumor_voxels / total_voxels) * 100`. -/
def tumor_percentage (seg : List ℕ) : ℚ :=
  (tumor_voxels seg : ℚ) / (total_voxels : ℚ) * 100

/-- Key set of the emitted `regions` mapping: the class ids present in the
segmentation map with `class_id > 0`. -/
def regions (seg : List ℕ) : Finset ℕ := seg.toFinset.filter (0 < ·)

/-- Field `voxels` of one region entry. -/
def region_voxels (seg : List ℕ) (c : ℕ) : ℕ := region_counts seg c

/-- Field `percentage = (count / total_voxels) * 100` of one region entry. -/
def region_percentage (seg : List ℕ) (c : ℕ) : ℚ :=
  (region_counts seg c : ℚ) / (total_voxels : ℚ) * 100

theorem prediction_flat_length (probs : ℕ → ℕ → ℕ → List ℚ) :
    (prediction_flat probs).length = total_voxels := by
  simp [prediction_flat]

theorem sum_count_toFinset (l : List ℕ) :
    (l.toFinset.sum fun c => l.count c) = l.length := by
  simpa using Multiset.toFinset_sum_count_eq (l : Multiset ℕ)

theorem sum_regions_add_background (seg : List ℕ) :
    ((regions seg).sum fun c => seg.count c) + seg.count 0 = seg.length := by
  have hsplit := Finset.sum_filter_add_sum_filter_not seg.toFinset
    (fun c => 0 < c) (fun c => seg.count c)
  have hfe : seg.toFinset.filter (fun c => ¬0 < c) =
      seg.toFinset.filter (fun c => c = 0) :=
    Finset.filter_congr fun c _ => by omega
  have h0 : ((seg.toFinset.filter fun c => c = 0).sum fun c => seg.count c) =
      seg.count 0 := by
    rw [Finset.filter_eq']
    split
    · next hmem => rw [Finset.sum_singleton]
    · next hmem =>
      rw [Finset.sum_empty]
      exact (List.count_eq_zero.2 fun hc => hmem (List.mem_toFinset.2 hc)).symm
  rw [hfe, h0] at hsplit
  rw [← sum_count_toFinset seg, ← hsplit]
  rfl

/-- C7: for every class-probability tensor, the region statistics of the
`predict` endpoint satisfy: the per-class voxel counts summed over all
present class ids equal `totalVoxels`; `totalVoxels = 128*128*96`; and
`tumorVoxels + countOf(class 0) = totalVoxels`. -/
theorem region_statistics_counts (probs : ℕ → ℕ → ℕ → List ℚ) :
    ((prediction_flat probs).toFinset.sum fun c =>
        region_counts (prediction_flat probs) c) = total_voxels ∧
      total_voxels = 128 * 128 * 96 ∧
      tumor_voxels (prediction_flat probs) +
        region_counts (prediction_flat probs) 0 = total_voxels := by
  have hlen := prediction_flat_length probs
  have hle : (prediction_flat probs).count 0 ≤ total_voxels :=
    hlen ▸ List.count_le_length 0 (prediction_flat probs)
  refine ⟨?_, rfl, ?_⟩
  · exact (sum_count_toFinset (prediction_flat probs)).trans hlen
  · rw [tumor_voxels, region_counts]
    omega

/-- C10: for every class-probability tensor, `tumorVoxels` equals the sum of
the `voxels` fields over the emitted region entries (the class ids > 0
present in the segmentation map); over exact rational arithmetic,
`tumorPercentage` equals the sum of the region percentages; and the regions
mapping is empty exactly when `tumorVoxels` is `0`. -/
theorem region_statistics_decomposition (probs : ℕ → ℕ → ℕ → List ℚ) :
    tumor_voxels (prediction_flat probs) =
        ((regions (prediction_flat probs)).sum fun c =>
          region_voxels (prediction_flat probs) c) ∧
      tumor_percentage (prediction_flat probs) =
        ((regions (prediction_flat probs)).sum fun c =>
          region_percentage (prediction_flat probs) c) ∧
      (regions (prediction_flat probs) = ∅ ↔
        tumor_voxels (prediction_flat probs) = 0) := by
  set seg := prediction_flat probs with hseg
  have hlen : seg.length = total_voxels := prediction_flat_length probs
  have hle : seg.count 0 ≤ total_voxels := hlen ▸ List.count_le_length 0 seg
  have hsum : ((regions seg).sum fun c => seg.count c) + seg.count 0 =
      total_voxels := (sum_regions_add_background seg).trans hlen
  have h1 : tumor_voxels seg = (regions seg).sum fun c => region_voxels seg c := by
    rw [tumor_voxels, region_counts]
    show total_voxels - seg.count 0 = (regions seg).sum fun c => seg.count c
    omega
  refine ⟨h1, ?_, ?_⟩
  · rw [tumor_percentage, h1]
    rw [Nat.cast_sum, Finset.sum_div, Finset.sum_mul]
    rfl
  · rw [regions, Finset.filter_eq_empty_iff, tumor_voxels, region_counts]
    constructor
    · intro hall
      have hcnt : seg.count 0 = seg.length :=
        List.count_eq_length.2 fun b hb => by
          have := hall (List.mem_toFinset.2 hb); omega
      omega
    · intro h0 c hc
      have hcmem : c ∈ seg := List.mem_toFinset.1 hc
      have hcnt : seg.count 0 = seg.length := by omega
      have hzero := List.count_eq_length.1 hcnt c hcmem
      omega

/-- Row-major flattening of a shaped volume (`volume.flatten()`), from which
`preprocess_mri` computes its percentile window. -/
def flatten_volume (v : Volume) : List ℚ :=
  (List.range (v.shape.1 * v.shape.2.1 * v.shape.2.2)).map fun n =>
    v.data (n / (v.shape.2.1 * v.shape.2.2)) (n / v.shape.2.2 % v.shape.2.1)
      (n % v.shape.2.2)

/-- Function `preprocess_mri` on a shaped volume: the percentile window and
the divisor are computed from the flattened data, then applied voxel-wise;
the shape is unchanged. -/
def preprocess_mri_volume (v : Volume) : Volume :=
  { shape := v.shape,
    data := fun i j k =>
      normalize_voxel (min_percentile (flatten_volume v))
        (max_percentile (flatten_volume v)) (range_val (flatten_volume v))
        (v.data i j k) }

/-- Function `parse_nifti`: decode an in-memory byte buffer with the
volumetric container decoder (`nib.load(BytesIO(content)).get_fdata()`, a
library call modelled as an arbitrary partial decoding function), turning
any decoding failure into the `ValueError` modelled by
`ApiError.decodeError`. -/
def parse_nifti (decode : List ℕ → Option Volume) (content : List ℕ) :
    Except ApiError Volume :=
  match decode content with
  | some v => .ok v
  | none => .error ApiError.decodeError

/-- Fixed name table `tumor_labels` of the statistics stage, with the generic
fallback for a class id outside the table. -/
inductive TumorLabel where
  | background
  | ncrNet
  | edema
  | enhancingTumor
  | classOther (c : ℕ)
deriving DecidableEq

/-- Lookup `tumor_labels.get(class_id, f"Class {class_id}")`. -/
def tumor_labels (c : ℕ) : TumorLabel :=
  if c = 0 then .background
  else if c = 1 then .ncrNet
  else if c = 2 then .edema
  else if c = 3 then .enhancingTumor
  else .classOther c

/-- Success payload assembled by `predict` (the `timestamp` string and the
constant `method` tag of the JSON response are transport metadata outside
the embedded core). -/
structure Response where
  success : Bool
  prediction : List ℕ
  shape : List ℕ
  totalVoxels : ℕ
  tumorVoxels : ℕ
  tumorPercentage : ℚ
  regionEntries : List (ℕ × TumorLabel × ℕ × ℚ)

/-- Endpoint `predict`: parse the four modality buffers, preprocess and
resample each volume, stack them, run the externally supplied segmentation
engine on the input tensor, take the per-voxel arg-max, and aggregate the
region statistics; the first raised error aborts the request and is the
single failure response surfaced to the caller. -/
def predict (decode : List ℕ → Option Volume)
    (engine : Stacked → ℕ → ℕ → ℕ → List ℚ)
    (t1_content t1ce_content t2_content flair_content : List ℕ) :
    Except ApiError Response := do
  let t1_data ← parse_nifti decode t1_content
  let t1ce_data ← parse_nifti decode t1ce_content
  let t2_data ← parse_nifti decode t2_content
  let flair_data ← parse_nifti decode flair_content
  let t1_resized := resize_volume (preprocess_mri_volume t1_data) (128, 128, 96)
  let t1ce_resized := resize_volume (preprocess_mri_volume t1ce_data) (128, 128, 96)
  let t2_resized := resize_volume (preprocess_mri_volume t2_data) (128, 128, 96)
  let flair_resized := resize_volume (preprocess_mri_volume flair_data) (128, 128, 96)
  let input_tensor ← stack_modalities t1_resized t1ce_resized t2_resized flair_resized
  let probs := engine input_tensor
  let seg := prediction_flat probs
  pure { success := true
         prediction := seg
         shape := [128, 128, 96]
         totalVoxels := total_voxels
         tumorVoxels := tumor_voxels seg
         tumorPercentage := tumor_percentage seg
         regionEntries := ((regions seg).sort (· ≤ ·)).map fun c =>
           (c, tumor_labels c, region_voxels seg c, region_percentage seg c) }

/-- C8: if the container bytes of any one of the four modalities fail to
decode, the whole `predict` request fails with the decode error — whatever
the engine and the other modalities are — and no partial statistics and no
partial result are produced, since the returned value carries no response
record at all. -/
theorem predict_decode_failure (decode : List ℕ → Option Volume)
    (engine : Stacked → ℕ → ℕ → ℕ → List ℚ)
    (t1_content t1ce_content t2_content flair_content : List ℕ)
    (h : decode t1_content = none ∨ decode t1ce_content = none ∨
      decode t2_content = none ∨ decode flair_content = none) :
    predict decode engine t1_content t1ce_content t2_content flair_content =
      .error ApiError.decodeError := by
  rw [predict]
  rcases h with h1 | h2 | h3 | h4
  · simp [parse_nifti, h1, Bind.bind, Except.bind]
  · cases hd1 : decode t1_content <;>
      simp [parse_nifti, h2, hd1, Bind.bind, Except.bind]
  · cases hd1 : decode t1_content <;> cases hd2 : decode t1ce_content <;>
      simp [parse_nifti, h3, hd1, hd2, Bind.bind, Except.bind]
  · cases hd1 : decode t1_content <;> cases hd2 : decode t1ce_content <;>
      cases hd3 : decode t2_content <;>
      simp [parse_nifti, h4, hd1, hd2, hd3, Bind.bind, Except.bind]

/-- Witness for C8 with a decoder that rejects every buffer: the request
fails with the decode error. -/
theorem predict_decode_failure_witness :
    ((fun _ : List ℕ => (none : Option Volume)) [] = none ∨
        (fun _ : List ℕ => (none : Option Volume)) [] = none ∨
        (fun _ : List ℕ => (none : Option Volume)) [] = none ∨
        (fun _ : List ℕ => (none : Option Volume)) [] = none) ∧
      predict (fun _ => none) (fun _ _ _ _ => []) [] [] [] [] =
        .error ApiError.decodeError :=
  ⟨Or.inl rfl,
    predict_decode_failure (fun _ => none) (fun _ _ _ _ => []) [] [] [] []
      (Or.inl rfl)⟩
